import Mathlib

/-!
# Verification of the zophar-downloader resumable download orchestrator

Shallow embedding of `src/game_music_downloader.py` (the core orchestrator)
and the relevant part of the legacy script `src/download.py`.

Python dictionaries are modelled as association lists (`List (String × _)`)
with in-place-overwrite insertion, files on disk as a map from game-folder
name to the list of file names it holds, and network / archive behaviour as
oracles (the outcome of the i-th HTTP attempt at a url, the file list inside
a fetched archive, whether extraction of a fetched archive raises).
-/

namespace Zophar

/-- One entry of a game's `download_links` list: `{"name": ..., "url": ...}`. -/
structure LinkInfo where
  name : String
  url : String
deriving DecidableEq

/-- One catalog entry of `downloads_list.json` as read by `main`
(the `console` field is handled by the per-console grouping, which the
per-console run below already presupposes). -/
structure GameData where
  name : String
  download_links : List LinkInfo
  image_url : String
  game_page_url : String
deriving DecidableEq

/-- A progress / failure record: `{"status": ..., "comment": ...}`. -/
structure Record where
  status : String
  comment : String
deriving DecidableEq

/-- The fields of `settings.json` used by the per-console loop of `main`. -/
structure Settings where
  format_priority : List String
  need_to_extract : Bool
  redownload_failed_files : Bool
  retry_count : Int
deriving DecidableEq

/-- Observable side effects of one run, in order of occurrence.
`fetchAttempt u` is one `requests.get(u)` call; `sleep` is one
`time.sleep(retry_delay_seconds)`. -/
inductive Event where
  | fetchAttempt (url : String)
  | sleep
  | createDir (folder : String)
  | extract (folder : String)
  | removeFile (file : String)
  | saveStatus
  | saveFailed
deriving DecidableEq

/-- How one call to `download_file_with_retry` ends: normal return,
`raise last_exception` with a real exception, or `raise last_exception`
with `last_exception` still `None` (which is itself a `TypeError` in
Python: raising `None` is invalid). -/
inductive FetchOutcome where
  | success
  | raised (msg : String)
  | raisedNone
deriving DecidableEq

/-- `raise last_exception` at the end of `download_file_with_retry`. -/
def raiseOf : Option String → FetchOutcome
  | none => .raisedNone
  | some e => .raised e

/-- The message the surrounding `except Exception as e` clause observes. -/
def msgOf : FetchOutcome → String
  | .success => ""
  | .raised e => e
  | .raisedNone => "exceptions must derive from BaseException"

/-- The loop body of `download_file_with_retry`: `idx` is the value of
`attempt`, `r` the number of loop iterations still to run, `last` the
current `last_exception`. The attempt oracle gives `none` when the i-th
`requests.get` + streaming write succeeds and `some msg` when it raises.
Returns the emitted events and the outcome. -/
def downloadAux (url : String) (oracle : Nat → Option String) :
    Nat → Nat → Option String → List Event × FetchOutcome
  | _, 0, last => ([], raiseOf last)
  | idx, r + 1, _ =>
    match oracle idx with
    | none => ([.fetchAttempt url], .success)
    | some e =>
      if r = 0 then
        ([.fetchAttempt url], .raised e)
      else
        let rest := downloadAux url oracle (idx + 1) r (some e)
        (.fetchAttempt url :: .sleep :: rest.1, rest.2)

/-- `download_file_with_retry(url, save_path, retry_count, retry_delay_seconds)`:
`for attempt in range(retry_count)` runs `max retry_count 0` iterations
(`retry_count` is an `int`, possibly non-positive), sleeping between
consecutive failed attempts but not after the last. -/
def download_file_with_retry (url : String) (oracle : Nat → Option String)
    (retry_count : Int) : List Event × FetchOutcome :=
  downloadAux url oracle 0 retry_count.toNat none

/-- Number of HTTP attempts in an event list. -/
def countAttempts : List Event → Nat
  | [] => 0
  | .fetchAttempt _ :: l => countAttempts l + 1
  | _ :: l => countAttempts l

/-- Number of retry delays in an event list. -/
def countSleeps : List Event → Nat
  | [] => 0
  | .sleep :: l => countSleeps l + 1
  | _ :: l => countSleeps l

/-- `s.lower()` of CPython, modelled character-wise. -/
def pyLower (s : String) : String := String.mk (s.toList.map Char.toLower)

/-- Python's substring test `needle in hay`: a contiguous-substring check,
modelled as the decidable infix relation on the character lists. -/
def pyIn (needle hay : String) : Bool := decide (needle.toList <:+: hay.toList)

/-- `select_download_link(download_links, format_priority)` from
`game_music_downloader.py`: two nested `for` loops with early `return`. -/
def select_download_link (download_links : List LinkInfo) :
    List String → Option String
  | [] => none
  | p :: ps =>
    match download_links.find? (fun li => pyIn (pyLower p) (pyLower li.name)) with
    | some li => some li.url
    | none => select_download_link download_links ps

/-- The selector as the spec words it: iterate the priority list in order;
for each priority term take the first variant (in original order) whose
label contains the term as case-insensitive substring; `none` when no
priority term matches any variant. -/
def selectorSpec (variants : List LinkInfo) (priority : List String) : Option String :=
  priority.findSome? (fun term =>
    (variants.find? (fun v => decide ((pyLower term).toList <:+: (pyLower v.name).toList))).map
      (fun v => v.url))

/-- Lookup in a Python dict modelled as an association list. -/
def lookupKV (m : List (String × Record)) (k : String) : Option Record :=
  match m with
  | [] => none
  | (k1, v1) :: rest => if k1 = k then some v1 else lookupKV rest k

/-- `d[k] = v` on a Python dict: overwrite in place, or append a new binding. -/
def insertKV (m : List (String × Record)) (k : String) (v : Record) :
    List (String × Record) :=
  match m with
  | [] => [(k, v)]
  | (k1, v1) :: rest =>
    if k1 = k then (k1, v) :: rest else (k1, v1) :: insertKV rest k v

/-- The console's download directory: game-folder name ↦ names of the files
it currently holds. A missing key is a folder that does not exist. -/
abbrev FS := List (String × List String)

/-- Folder listing `os.listdir`, as an option on existence. -/
def lookupFS (fs : FS) (folder : String) : Option (List String) :=
  match fs with
  | [] => none
  | (k1, v1) :: rest => if k1 = folder then some v1 else lookupFS rest folder

/-- `create_directory`: `os.makedirs` only when the folder does not exist. -/
def ensureDir (fs : FS) (folder : String) : FS :=
  match lookupFS fs folder with
  | some _ => fs
  | none => fs ++ [(folder, [])]

/-- Writing a file into a folder: the name joins the listing if new. -/
def addFile : FS → String → String → FS
  | [], _, _ => []
  | (k, v) :: rest, folder, file =>
    if k = folder then
      (k, if file ∈ v then v else v ++ [file]) :: addFile rest folder file
    else
      (k, v) :: addFile rest folder file

/-- Extracting an archive: all member names join the folder's listing. -/
def addFiles (fs : FS) (folder : String) (files : List String) : FS :=
  files.foldl (fun acc f => addFile acc folder f) fs

/-- `os.remove` of one file in a folder. -/
def removeFileFS : FS → String → String → FS
  | [], _, _ => []
  | (k, v) :: rest, folder, file =>
    if k = folder then (k, v.erase file) :: removeFileFS rest folder file
    else (k, v) :: removeFileFS rest folder file

/-- `sanitize_folder_name`: replace `<>:"/\|?*` by `_`, then strip trailing
spaces and periods. -/
def invalidPathChar (c : Char) : Bool :=
  c = '<' ∨ c = '>' ∨ c = ':' ∨ c = '"' ∨ c = '/' ∨ c = '\\' ∨ c = '|' ∨ c = '?' ∨ c = '*'

def sanitize_folder_name (s : String) : String :=
  String.mk
    (((s.toList.map (fun c => if invalidPathChar c then '_' else c)).reverse.dropWhile
      (fun c => c = ' ' ∨ c = '.')).reverse)

/-- The extension part of `posixpath.splitext` applied to a basename: the
suffix from the last dot, unless every character before that dot is a dot. -/
def extOfBase (base : List Char) : List Char :=
  let afterDotRev := base.reverse.takeWhile (fun c => c ≠ '.')
  if afterDotRev.length = base.length then []
  else
    let beforeDot := base.take (base.length - afterDotRev.length - 1)
    if beforeDot.all (fun c => c = '.') then [] else '.' :: afterDotRev.reverse

/-- `os.path.splitext(p)[1]` for a `/`-separated locator. -/
def splitextExt (p : String) : String :=
  String.mk (extOfBase ((p.toList.reverse.takeWhile (fun c => c ≠ '/')).reverse))

/-- Python's `name.startswith(pre)`, as the decidable prefix relation on
the character lists. -/
def pyStartswith (name pre : String) : Bool := decide (pre.toList <+: name.toList)

/-- `validate_game_directories` body for one folder listing: delete when
empty, or when the single file it holds starts with `cover`. -/
def isBrokenFolder (files : List String) : Bool :=
  match files with
  | [] => true
  | [f] => pyStartswith f "cover"
  | _ => false

/-- `validate_game_directories(console_name)`: every broken game folder of
the console directory is removed; the rest stay untouched. -/
def validate_game_directories (fs : FS) : FS :=
  fs.filter (fun e => !(isBrokenFolder e.2))

/-- Orchestrator state for one run: the console's file system, the two
in-memory dicts of `main`, and their on-disk (persisted) copies. -/
structure OrchState where
  fs : FS
  status : List (String × Record)
  failed : List (String × Record)
  savedStatus : List (String × Record)
  savedFailed : List (String × Record)
deriving DecidableEq

/-- The `except` clause of `main` and the no-suitable-link branch: write the
fail record, `save_download_status`, and append a failure-ledger entry only
when the identifier has none yet (then `save_failed_downloads`). -/
def recordFailure (url msg : String) (s : OrchState) : OrchState × List Event :=
  let status1 := insertKV s.status url ⟨"fail", msg⟩
  let s1 := { s with status := status1, savedStatus := status1 }
  match lookupKV s1.failed url with
  | some _ => (s1, [.saveStatus])
  | none =>
    let failed1 := insertKV s1.failed url ⟨"fail", msg⟩
    ({ s1 with failed := failed1, savedFailed := failed1 }, [.saveStatus, .saveFailed])

/-- The success tail of `main`'s try block: record `done` and persist. -/
def recordSuccess (url : String) (s : OrchState) : OrchState × List Event :=
  let status1 := insertKV s.status url ⟨"done", ""⟩
  ({ s with status := status1, savedStatus := status1 }, [.saveStatus])

/-- The per-game loop body of `main`.

`oracle url i` is the outcome of the i-th HTTP attempt at `url` (`none`
means success), `zipFiles url` the member names of the archive fetched
from `url`, and `extractErr url` is `some msg` when `extract_zip` on that
archive raises. Returns the new state and the events of this game. -/
def processGame (cfg : Settings) (oracle : String → Nat → Option String)
    (zipFiles : String → List String) (extractErr : String → Option String)
    (g : GameData) (s : OrchState) : OrchState × List Event :=
  let url := g.game_page_url
  let cur := (lookupKV s.status url).map (fun r => r.status)
  if cur = some "done" then (s, [])
  else
    if cur = some "fail" ∧ ¬cfg.redownload_failed_files then (s, [])
    else
      let folder := sanitize_folder_name g.name
      let s1 := { s with fs := ensureDir s.fs folder }
      match select_download_link g.download_links cfg.format_priority with
      | none =>
        let rf := recordFailure url "No suitable link" s1
        (rf.1, .createDir folder :: rf.2)
      | some link =>
        let fr := download_file_with_retry link (oracle link) cfg.retry_count
        match fr.2 with
        | .success =>
          let s2 := { s1 with fs := addFile s1.fs folder "music.zip" }
          if cfg.need_to_extract then
            match extractErr link with
            | some m =>
              let rf := recordFailure url m s2
              (rf.1, .createDir folder :: fr.1 ++ .extract folder :: rf.2)
            | none =>
              let s3 := { s2 with fs := addFiles s2.fs folder (zipFiles link) }
              let s4 := { s3 with fs := removeFileFS s3.fs folder "music.zip" }
              if g.image_url ≠ "" then
                let coverName := "cover" ++ splitextExt g.image_url
                let cr :=
                  download_file_with_retry g.image_url (oracle g.image_url) cfg.retry_count
                match cr.2 with
                | .success =>
                  let s5 := { s4 with fs := addFile s4.fs folder coverName }
                  let rs := recordSuccess url s5
                  (rs.1, .createDir folder ::
                    fr.1 ++ .extract folder :: .removeFile "music.zip" :: cr.1 ++ rs.2)
                | o =>
                  let rf := recordFailure url (msgOf o) s4
                  (rf.1, .createDir folder ::
                    fr.1 ++ .extract folder :: .removeFile "music.zip" :: cr.1 ++ rf.2)
              else
                let rs := recordSuccess url s4
                (rs.1, .createDir folder ::
                  fr.1 ++ .extract folder :: .removeFile "music.zip" :: rs.2)
          else
            let rs := recordSuccess url s2
            (rs.1, .createDir folder :: fr.1 ++ rs.2)
        | o =>
          let rf := recordFailure url (msgOf o) s1
          (rf.1, .createDir folder :: fr.1 ++ rf.2)

/-- The inner loop of `main` over the games of one console. -/
def runGames (cfg : Settings) (oracle : String → Nat → Option String)
    (zipFiles : String → List String) (extractErr : String → Option String) :
    List GameData → OrchState → OrchState × List Event
  | [], s => (s, [])
  | g :: rest, s =>
    let r1 := processGame cfg oracle zipFiles extractErr g s
    let r2 := runGames cfg oracle zipFiles extractErr rest r1.1
    (r2.1, r1.2 ++ r2.2)

/-- One iteration of `main`'s console loop: directory hygiene, then the
games of the console in catalog order. -/
def runConsole (cfg : Settings) (oracle : String → Nat → Option String)
    (zipFiles : String → List String) (extractErr : String → Option String)
    (games : List GameData) (s : OrchState) : OrchState × List Event :=
  runGames cfg oracle zipFiles extractErr games
    { s with fs := validate_game_directories s.fs }

/-- The skip filter of `parse_console_page` in the legacy `download.py`:
a game whose folder exists and is non-empty is excluded from
`games_to_download`, on content presence alone. -/
def games_to_download (fs : FS) (all_games : List (String × String)) :
    List (String × String) :=
  all_games.filter (fun g =>
    match lookupFS fs g.1 with
    | some files => files.isEmpty
    | none => true)

lemma countAttempts_nil : countAttempts [] = 0 := rfl

lemma countAttempts_fetch (u : String) (l : List Event) :
    countAttempts (.fetchAttempt u :: l) = countAttempts l + 1 := rfl

lemma countAttempts_sleep (l : List Event) :
    countAttempts (.sleep :: l) = countAttempts l := rfl

lemma countSleeps_nil : countSleeps [] = 0 := rfl

lemma countSleeps_fetch (u : String) (l : List Event) :
    countSleeps (.fetchAttempt u :: l) = countSleeps l := rfl

lemma countSleeps_sleep (l : List Event) :
    countSleeps (.sleep :: l) = countSleeps l + 1 := rfl

lemma downloadAux_attempts_le (url : String) (oracle : Nat → Option String) :
    ∀ (r idx : Nat) (last : Option String),
      countAttempts (downloadAux url oracle idx r last).1 ≤ r := by
  intro r
  induction r with
  | zero => intro idx last; simp [downloadAux, countAttempts_nil]
  | succ m ih =>
    intro idx last
    cases h : oracle idx with
    | none =>
      simp [downloadAux, h, countAttempts_fetch, countAttempts_nil]
    | some e =>
      by_cases hm : m = 0
      · subst hm
        simp [downloadAux, h, countAttempts_fetch, countAttempts_nil]
      · simp only [downloadAux, h, if_neg hm]
        rw [countAttempts_fetch, countAttempts_sleep]
        have := ih (idx + 1) (some e)
        omega

lemma downloadAux_all_fail (url : String) (oracle : Nat → Option String)
    (err : Nat → String) :
    ∀ (r idx : Nat) (last : Option String), 1 ≤ r →
      (∀ i, i < r → oracle (idx + i) = some (err (idx + i))) →
      countAttempts (downloadAux url oracle idx r last).1 = r ∧
      countSleeps (downloadAux url oracle idx r last).1 = r - 1 ∧
      (downloadAux url oracle idx r last).2 = .raised (err (idx + r - 1)) := by
  intro r
  induction r with
  | zero => intro idx last h; omega
  | succ m ih =>
    intro idx last _ hall
    have h0 : oracle idx = some (err idx) := by
      have := hall 0 (by omega)
      simpa using this
    by_cases hm : m = 0
    · subst hm
      simp [downloadAux, h0, countAttempts_fetch, countAttempts_nil,
        countSleeps_fetch, countSleeps_nil]
    · have hm1 : 1 ≤ m := by omega
      have hall1 : ∀ i, i < m → oracle (idx + 1 + i) = some (err (idx + 1 + i)) := by
        intro i hi
        have := hall (i + 1) (by omega)
        have e1 : idx + (i + 1) = idx + 1 + i := by omega
        rw [e1] at this
        exact this
      obtain ⟨ha, hs, ho⟩ := ih (idx + 1) (some (err idx)) hm1 hall1
      simp only [downloadAux, h0, if_neg hm]
      refine ⟨?_, ?_, ?_⟩
      · rw [countAttempts_fetch, countAttempts_sleep]; omega
      · rw [countSleeps_fetch, countSleeps_sleep]; omega
      · rw [ho]
        have e2 : idx + 1 + m - 1 = idx + (m + 1) - 1 := by omega
        rw [e2]

lemma downloadAux_first_success (url : String) (oracle : Nat → Option String) :
    ∀ (k idx r : Nat) (last : Option String), k < r →
      (∀ j, j < k → oracle (idx + j) ≠ none) → oracle (idx + k) = none →
      countAttempts (downloadAux url oracle idx r last).1 = k + 1 ∧
      countSleeps (downloadAux url oracle idx r last).1 = k ∧
      (downloadAux url oracle idx r last).2 = .success := by
  intro k
  induction k with
  | zero =>
    intro idx r last hk _ hsucc
    obtain ⟨m, rfl⟩ : ∃ m, r = m + 1 := ⟨r - 1, by omega⟩
    have h0 : oracle idx = none := by simpa using hsucc
    simp [downloadAux, h0, countAttempts_fetch, countAttempts_nil,
      countSleeps_fetch, countSleeps_nil]
  | succ j ih =>
    intro idx r last hk hfail hsucc
    obtain ⟨m, rfl⟩ : ∃ m, r = m + 1 := ⟨r - 1, by omega⟩
    have h0 : oracle idx ≠ none := by
      have := hfail 0 (by omega)
      simpa using this
    obtain ⟨e, he⟩ : ∃ e, oracle idx = some e := by
      cases h : oracle idx with
      | none => exact absurd h h0
      | some e => exact ⟨e, rfl⟩
    have hm : m ≠ 0 := by omega
    have hfail1 : ∀ i, i < j → oracle (idx + 1 + i) ≠ none := by
      intro i hi
      have := hfail (i + 1) (by omega)
      have e1 : idx + (i + 1) = idx + 1 + i := by omega
      rw [e1] at this
      exact this
    have hsucc1 : oracle (idx + 1 + j) = none := by
      have e1 : idx + (j + 1) = idx + 1 + j := by omega
      rw [e1] at hsucc
      exact hsucc
    obtain ⟨ha, hs, ho⟩ := ih (idx + 1) m (some e) (by omega) hfail1 hsucc1
    simp only [downloadAux, he, if_neg hm]
    refine ⟨?_, ?_, ?_⟩
    · rw [countAttempts_fetch, countAttempts_sleep]; omega
    · rw [countSleeps_fetch, countSleeps_sleep]; omega
    · exact ho

lemma lookupKV_insertKV (m : List (String × Record)) (k k' : String) (v : Record) :
    lookupKV (insertKV m k v) k' = if k = k' then some v else lookupKV m k' := by
  induction m with
  | nil => by_cases h : k = k' <;> simp [insertKV, lookupKV, h]
  | cons e rest ih =>
    obtain ⟨k1, v1⟩ := e
    by_cases h1 : k1 = k
    · subst h1
      by_cases h2 : k1 = k'
      · subst h2; simp [insertKV, lookupKV]
      · simp [insertKV, lookupKV, h2]
    · by_cases h2 : k1 = k'
      · subst h2
        have h3 : ¬k = k1 := fun h => h1 h.symm
        simp [insertKV, lookupKV, h1, h3]
      · simp [insertKV, lookupKV, h1, h2, ih]

lemma recordFailure_failed_mono (url msg : String) (s : OrchState) (k : String)
    (r : Record) (h : lookupKV s.failed k = some r) :
    lookupKV (recordFailure url msg s).1.failed k = some r := by
  unfold recordFailure
  cases hf : lookupKV s.failed url with
  | some v => simpa [hf] using h
  | none =>
    have hne : url ≠ k := by
      intro he
      rw [he, h] at hf
      cases hf
    simp [hf, lookupKV_insertKV, hne, h]

lemma recordSuccess_failed_eq (url : String) (s : OrchState) :
    (recordSuccess url s).1.failed = s.failed := rfl

lemma processGame_failed_mono (cfg : Settings) (oracle : String → Nat → Option String)
    (zipFiles : String → List String) (extractErr : String → Option String)
    (g : GameData) (s : OrchState) (k : String) (r : Record)
    (h : lookupKV s.failed k = some r) :
    lookupKV (processGame cfg oracle zipFiles extractErr g s).1.failed k = some r := by
  simp only [processGame]
  repeat' split
  all_goals first
    | exact h
    | exact recordFailure_failed_mono _ _ _ _ _ h

lemma runGames_failed_mono (cfg : Settings) (oracle : String → Nat → Option String)
    (zipFiles : String → List String) (extractErr : String → Option String)
    (games : List GameData) (s : OrchState) (k : String) (r : Record)
    (h : lookupKV s.failed k = some r) :
    lookupKV (runGames cfg oracle zipFiles extractErr games s).1.failed k = some r := by
  induction games generalizing s with
  | nil => exact h
  | cons g rest ih =>
    exact ih _ (processGame_failed_mono cfg oracle zipFiles extractErr g s k r h)

lemma processGame_skip_done (cfg : Settings) (oracle : String → Nat → Option String)
    (zipFiles : String → List String) (extractErr : String → Option String)
    (g : GameData) (s : OrchState)
    (h : (lookupKV s.status g.game_page_url).map (fun r => r.status) = some "done") :
    processGame cfg oracle zipFiles extractErr g s = (s, []) := by
  simp [processGame, h]

lemma processGame_skip_fail (cfg : Settings) (oracle : String → Nat → Option String)
    (zipFiles : String → List String) (extractErr : String → Option String)
    (g : GameData) (s : OrchState)
    (h : (lookupKV s.status g.game_page_url).map (fun r => r.status) = some "fail")
    (hr : cfg.redownload_failed_files = false) :
    processGame cfg oracle zipFiles extractErr g s = (s, []) := by
  simp [processGame, h, hr]

lemma runGames_all_done (cfg : Settings) (oracle : String → Nat → Option String)
    (zipFiles : String → List String) (extractErr : String → Option String) :
    ∀ (games : List GameData) (s : OrchState),
      (∀ g ∈ games,
        (lookupKV s.status g.game_page_url).map (fun r => r.status) = some "done") →
      runGames cfg oracle zipFiles extractErr games s = (s, []) := by
  intro games
  induction games with
  | nil => intro s _; rfl
  | cons g rest ih =>
    intro s hall
    have hstep := processGame_skip_done cfg oracle zipFiles extractErr g s
      (hall g (by simp))
    have hrest := ih s (fun g' hg' => hall g' (by simp [hg']))
    simp [runGames, hstep, hrest]

lemma recordFailure_persists (url msg : String) (s : OrchState)
    (h2 : s.savedFailed = s.failed) :
    (recordFailure url msg s).1.savedStatus = (recordFailure url msg s).1.status ∧
    (recordFailure url msg s).1.savedFailed = (recordFailure url msg s).1.failed := by
  unfold recordFailure
  cases hf : lookupKV s.failed url <;> simp [hf, h2]

lemma recordSuccess_persists (url : String) (s : OrchState)
    (h2 : s.savedFailed = s.failed) :
    (recordSuccess url s).1.savedStatus = (recordSuccess url s).1.status ∧
    (recordSuccess url s).1.savedFailed = (recordSuccess url s).1.failed := by
  exact ⟨rfl, h2⟩

lemma processGame_persists (cfg : Settings) (oracle : String → Nat → Option String)
    (zipFiles : String → List String) (extractErr : String → Option String)
    (g : GameData) (s : OrchState)
    (h1 : s.savedStatus = s.status) (h2 : s.savedFailed = s.failed) :
    (processGame cfg oracle zipFiles extractErr g s).1.savedStatus =
      (processGame cfg oracle zipFiles extractErr g s).1.status ∧
    (processGame cfg oracle zipFiles extractErr g s).1.savedFailed =
      (processGame cfg oracle zipFiles extractErr g s).1.failed := by
  simp only [processGame]
  repeat' split
  all_goals first
    | exact ⟨h1, h2⟩
    | exact recordFailure_persists _ _ _ h2
    | exact recordSuccess_persists _ _ h2

lemma runGames_persists (cfg : Settings) (oracle : String → Nat → Option String)
    (zipFiles : String → List String) (extractErr : String → Option String) :
    ∀ (games : List GameData) (s : OrchState),
      s.savedStatus = s.status → s.savedFailed = s.failed →
      (runGames cfg oracle zipFiles extractErr games s).1.savedStatus =
        (runGames cfg oracle zipFiles extractErr games s).1.status ∧
      (runGames cfg oracle zipFiles extractErr games s).1.savedFailed =
        (runGames cfg oracle zipFiles extractErr games s).1.failed := by
  intro games
  induction games with
  | nil => intro s h1 h2; exact ⟨h1, h2⟩
  | cons g rest ih =>
    intro s h1 h2
    have hstep := processGame_persists cfg oracle zipFiles extractErr g s h1 h2
    exact ih _ hstep.1 hstep.2

lemma countAttempts_createDir (f : String) (l : List Event) :
    countAttempts (.createDir f :: l) = countAttempts l := rfl

lemma countAttempts_saveStatus (l : List Event) :
    countAttempts (.saveStatus :: l) = countAttempts l := rfl

lemma countAttempts_saveFailed (l : List Event) :
    countAttempts (.saveFailed :: l) = countAttempts l := rfl

lemma countSleeps_createDir (f : String) (l : List Event) :
    countSleeps (.createDir f :: l) = countSleeps l := rfl

lemma countSleeps_saveStatus (l : List Event) :
    countSleeps (.saveStatus :: l) = countSleeps l := rfl

lemma countSleeps_saveFailed (l : List Event) :
    countSleeps (.saveFailed :: l) = countSleeps l := rfl

lemma recordFailure_status_lookup (url msg : String) (s : OrchState) :
    lookupKV (recordFailure url msg s).1.status url = some ⟨"fail", msg⟩ ∧
    lookupKV (recordFailure url msg s).1.savedStatus url = some ⟨"fail", msg⟩ := by
  unfold recordFailure
  cases hf : lookupKV s.failed url <;> simp [hf, lookupKV_insertKV]

lemma recordFailure_failed_new (url msg : String) (s : OrchState)
    (h : lookupKV s.failed url = none) :
    lookupKV (recordFailure url msg s).1.failed url = some ⟨"fail", msg⟩ ∧
    lookupKV (recordFailure url msg s).1.savedFailed url = some ⟨"fail", msg⟩ := by
  unfold recordFailure
  simp [h, lookupKV_insertKV]

lemma recordFailure_counts (url msg : String) (s : OrchState) :
    countAttempts (recordFailure url msg s).2 = 0 ∧
    countSleeps (recordFailure url msg s).2 = 0 := by
  unfold recordFailure
  cases hf : lookupKV s.failed url <;>
    simp [hf, countAttempts_saveStatus, countAttempts_saveFailed, countAttempts_nil,
      countSleeps_saveStatus, countSleeps_saveFailed, countSleeps_nil]

lemma countAttempts_extract (f : String) (l : List Event) :
    countAttempts (.extract f :: l) = countAttempts l := rfl

lemma countAttempts_removeFile (f : String) (l : List Event) :
    countAttempts (.removeFile f :: l) = countAttempts l := rfl

lemma countAttempts_append : ∀ l1 l2 : List Event,
    countAttempts (l1 ++ l2) = countAttempts l1 + countAttempts l2 := by
  intro l1 l2
  induction l1 with
  | nil => simp [countAttempts_nil]
  | cons e rest ih =>
    cases e <;>
      simp [countAttempts_fetch, countAttempts_sleep, countAttempts_createDir,
        countAttempts_extract, countAttempts_removeFile, countAttempts_saveStatus,
        countAttempts_saveFailed, ih] <;> omega

lemma lookupFS_addFile (fs : FS) (f file : String) :
    lookupFS (addFile fs f file) f =
      (lookupFS fs f).map (fun l => if file ∈ l then l else l ++ [file]) := by
  induction fs with
  | nil => rfl
  | cons e rest ih =>
    obtain ⟨k, v⟩ := e
    by_cases h : k = f
    · subst h
      simp [addFile, lookupFS]
    · simp [addFile, lookupFS, h, ih]

lemma lookupFS_removeFileFS (fs : FS) (f file : String) :
    lookupFS (removeFileFS fs f file) f =
      (lookupFS fs f).map (fun l => l.erase file) := by
  induction fs with
  | nil => rfl
  | cons e rest ih =>
    obtain ⟨k, v⟩ := e
    by_cases h : k = f
    · subst h
      simp [removeFileFS, lookupFS]
    · simp [removeFileFS, lookupFS, h, ih]

lemma lookupFS_append_self (f : String) (l0 : List String) :
    ∀ fs : FS, lookupFS fs f = none → lookupFS (fs ++ [(f, l0)]) f = some l0 := by
  intro fs
  induction fs with
  | nil => intro _; simp [lookupFS]
  | cons e rest ih =>
    obtain ⟨k, v⟩ := e
    intro h
    rw [lookupFS] at h
    by_cases hk : k = f
    · rw [if_pos hk] at h
      cases h
    · rw [if_neg hk] at h
      rw [List.cons_append, lookupFS, if_neg hk]
      exact ih h

lemma lookupFS_ensureDir (fs : FS) (f : String) :
    ∃ l, lookupFS (ensureDir fs f) f = some l := by
  unfold ensureDir
  cases h : lookupFS fs f with
  | some l => exact ⟨l, h⟩
  | none => exact ⟨[], lookupFS_append_self f [] fs h⟩

lemma lookupFS_addFiles (f : String) : ∀ (files : List String) (fs : FS)
    (l : List String), lookupFS fs f = some l →
    ∃ l', lookupFS (addFiles fs f files) f = some l' ∧
      (∀ x ∈ l, x ∈ l') ∧ (∀ x ∈ files, x ∈ l') := by
  intro files
  induction files with
  | nil => intro fs l h; exact ⟨l, h, fun x hx => hx, by simp⟩
  | cons a rest ih =>
    intro fs l h
    have h1 : lookupFS (addFile fs f a) f =
        some (if a ∈ l then l else l ++ [a]) := by
      rw [lookupFS_addFile, h]
      rfl
    obtain ⟨l', hl', hold, hnew⟩ := ih (addFile fs f a) _ h1
    refine ⟨l', hl', ?_, ?_⟩
    · intro x hx
      apply hold
      by_cases ha : a ∈ l
      · rw [if_pos ha]
        exact hx
      · rw [if_neg ha]
        exact List.mem_append_left _ hx
    · intro x hx
      rcases List.mem_cons.mp hx with hxa | hx1
      · apply hold
        rw [hxa]
        by_cases ha : a ∈ l
        · rw [if_pos ha]
          exact ha
        · rw [if_neg ha]
          simp
      · exact hnew x hx1

/-- The file-system effect of the extract-true success path: create the
folder, write `music.zip`, extract the members, delete `music.zip`. -/
def materializedFS (fs0 : FS) (folder : String) (zf : List String) : FS :=
  removeFileFS (addFiles (addFile (ensureDir fs0 folder) folder "music.zip")
    folder zf) folder "music.zip"

lemma fs_spine (fs0 : FS) (folder : String) (zf : List String) :
    ∃ files, lookupFS (materializedFS fs0 folder zf) folder = some files ∧
      ∀ x ∈ zf, x ≠ "music.zip" → x ∈ files := by
  unfold materializedFS
  obtain ⟨l0, hl0⟩ := lookupFS_ensureDir fs0 folder
  have h1 : lookupFS (addFile (ensureDir fs0 folder) folder "music.zip") folder =
      some (if "music.zip" ∈ l0 then l0 else l0 ++ ["music.zip"]) := by
    rw [lookupFS_addFile, hl0]
    rfl
  obtain ⟨l2, hl2, _, hnew⟩ := lookupFS_addFiles folder zf _ _ h1
  refine ⟨l2.erase "music.zip", ?_, ?_⟩
  · rw [lookupFS_removeFileFS, hl2]
    rfl
  · intro x hx hne
    exact (List.mem_erase_of_ne hne).mpr (hnew x hx)

lemma recordFailure_fs (url msg : String) (s : OrchState) :
    (recordFailure url msg s).1.fs = s.fs := by
  unfold recordFailure
  cases hf : lookupKV s.failed url <;> simp [hf]

/-- C1: the selector iterates the priority list in order, within a priority
term takes the first variant (in original order) whose label contains the
term case-insensitively, and returns `none` when no term matches any label;
on `[{"flac",u1},{"mp3",u2}]` with priority `["original","mp3","flac"]` it
returns `u2`, and with priority `["wav"]` it returns `none`. -/
theorem select_download_link_correct :
    (∀ (links : List LinkInfo) (prio : List String),
      select_download_link links prio = selectorSpec links prio) ∧
    select_download_link [⟨"flac", "u1"⟩, ⟨"mp3", "u2"⟩]
      ["original", "mp3", "flac"] = some "u2" ∧
    select_download_link [⟨"flac", "u1"⟩, ⟨"mp3", "u2"⟩] ["wav"] = none := by
  refine ⟨?_, by decide, by decide⟩
  intro links prio
  induction prio with
  | nil => rfl
  | cons p ps ih =>
    rw [select_download_link, selectorSpec, List.findSome?_cons]
    simp only [pyIn]
    cases h : links.find?
        (fun li => decide ((pyLower p).toList <:+: (pyLower li.name).toList)) with
    | none => simpa [selectorSpec] using ih
    | some li => rfl

/-- C2: with `retry_count ≥ 1`, the fetch engine performs at most
`retry_count` HTTP attempts; when every attempt fails it performs exactly
`retry_count` attempts with a delay between consecutive attempts (not after
the last) and re-raises the final attempt's exception; and it returns on
the first successful attempt. -/
theorem download_retry_contract (url : String) (oracle : Nat → Option String)
    (err : Nat → String) (n : Int) (h : 1 ≤ n) :
    countAttempts (download_file_with_retry url oracle n).1 ≤ n.toNat ∧
    ((∀ i, i < n.toNat → oracle i = some (err i)) →
      countAttempts (download_file_with_retry url oracle n).1 = n.toNat ∧
      countSleeps (download_file_with_retry url oracle n).1 = n.toNat - 1 ∧
      (download_file_with_retry url oracle n).2 = .raised (err (n.toNat - 1))) ∧
    (∀ k, k < n.toNat → (∀ j, j < k → oracle j ≠ none) → oracle k = none →
      countAttempts (download_file_with_retry url oracle n).1 = k + 1 ∧
      countSleeps (download_file_with_retry url oracle n).1 = k ∧
      (download_file_with_retry url oracle n).2 = .success) := by
  have hn : 1 ≤ n.toNat := by omega
  refine ⟨downloadAux_attempts_le url oracle n.toNat 0 none, ?_, ?_⟩
  · intro hall
    have := downloadAux_all_fail url oracle err n.toNat 0 none hn
      (by intro i hi; simpa using hall i hi)
    simpa [download_file_with_retry] using this
  · intro k hk hfail hsucc
    have := downloadAux_first_success url oracle k 0 n.toNat none hk
      (by intro j hj; simpa using hfail j hj) (by simpa using hsucc)
    simpa [download_file_with_retry] using this

/-- Witness for C2 at `retry_count = 3` against an always-failing endpoint:
exactly 3 attempts, 2 sleeps, and the third error surfaced. -/
theorem download_retry_contract_witness :
    countAttempts (download_file_with_retry "u" (fun _ => some "boom") 3).1 = 3 ∧
    countSleeps (download_file_with_retry "u" (fun _ => some "boom") 3).1 = 2 ∧
    (download_file_with_retry "u" (fun _ => some "boom") 3).2 = .raised "boom" := by
  have h := (download_retry_contract "u" (fun _ => some "boom") (fun _ => "boom")
    3 (by decide)).2.1 (by intro i _; rfl)
  simpa using h

/-- C10: called with `retry_count ≤ 0`, the fetch engine performs zero
HTTP attempts and reaches `raise last_exception` with `last_exception`
still `None` — neither a normal return nor the surfacing of a download
error. -/
theorem download_retry_nonpositive (url : String) (oracle : Nat → Option String)
    (n : Int) (h : n ≤ 0) :
    download_file_with_retry url oracle n = ([], .raisedNone) := by
  have hz : n.toNat = 0 := by omega
  rw [download_file_with_retry, hz]
  rfl

/-- Witness for C10 at `retry_count = 0`. -/
theorem download_retry_nonpositive_witness :
    download_file_with_retry "u" (fun _ => some "boom") 0 = ([], .raisedNone) :=
  download_retry_nonpositive "u" (fun _ => some "boom") 0 (by decide)

/-- C3: the failure ledger is monotone: an identifier's existing ledger
entry survives, unchanged, any single target's processing and any whole
per-console run — later failures for the same identifier and later
successes never remove or overwrite it. -/
theorem failure_ledger_monotone :
    (∀ (cfg : Settings) (oracle : String → Nat → Option String)
        (zipFiles : String → List String) (extractErr : String → Option String)
        (g : GameData) (s : OrchState) (k : String) (r : Record),
      lookupKV s.failed k = some r →
      lookupKV (processGame cfg oracle zipFiles extractErr g s).1.failed k = some r) ∧
    (∀ (cfg : Settings) (oracle : String → Nat → Option String)
        (zipFiles : String → List String) (extractErr : String → Option String)
        (games : List GameData) (s : OrchState) (k : String) (r : Record),
      lookupKV s.failed k = some r →
      lookupKV (runConsole cfg oracle zipFiles extractErr games s).1.failed k = some r) :=
  ⟨processGame_failed_mono,
   fun cfg oracle zipFiles extractErr games s k r h =>
     runGames_failed_mono cfg oracle zipFiles extractErr games _ k r h⟩

/-- Witness for C3: a previously failed identifier is retried
(`redownload_failed_files` on) and now succeeds; the progress store moves
to `done` while the ledger entry keeps its original record. -/
theorem failure_ledger_monotone_witness :
    lookupKV (runConsole ⟨["mp3"], false, true, 1⟩ (fun _ _ => none) (fun _ => [])
        (fun _ => none) [⟨"G", [⟨"mp3", "http://a/m.zip"⟩], "", "u"⟩]
        ⟨[], [("u", ⟨"fail", "old"⟩)], [("u", ⟨"fail", "old"⟩)],
          [("u", ⟨"fail", "old"⟩)], [("u", ⟨"fail", "old"⟩)]⟩).1.status "u" =
      some ⟨"done", ""⟩ ∧
    lookupKV (runConsole ⟨["mp3"], false, true, 1⟩ (fun _ _ => none) (fun _ => [])
        (fun _ => none) [⟨"G", [⟨"mp3", "http://a/m.zip"⟩], "", "u"⟩]
        ⟨[], [("u", ⟨"fail", "old"⟩)], [("u", ⟨"fail", "old"⟩)],
          [("u", ⟨"fail", "old"⟩)], [("u", ⟨"fail", "old"⟩)]⟩).1.failed "u" =
      some ⟨"fail", "old"⟩ :=
  ⟨by decide,
   failure_ledger_monotone.2 ⟨["mp3"], false, true, 1⟩ (fun _ _ => none) (fun _ => [])
     (fun _ => none) [⟨"G", [⟨"mp3", "http://a/m.zip"⟩], "", "u"⟩]
     ⟨[], [("u", ⟨"fail", "old"⟩)], [("u", ⟨"fail", "old"⟩)],
       [("u", ⟨"fail", "old"⟩)], [("u", ⟨"fail", "old"⟩)]⟩ "u" ⟨"fail", "old"⟩
     (by decide)⟩

/-- C4: entry dispatch is decided by the progress record alone: a `done`
record skips the target with no events and no state change; a `fail`
record with retrying disabled does the same; and a run over a catalog
whose every target is recorded `done` performs no events at all (zero
network fetches) beyond the hygiene scan. -/
theorem dispatch_by_record :
    (∀ (cfg : Settings) (oracle : String → Nat → Option String)
        (zipFiles : String → List String) (extractErr : String → Option String)
        (g : GameData) (s : OrchState),
      (lookupKV s.status g.game_page_url).map (fun r => r.status) = some "done" →
      processGame cfg oracle zipFiles extractErr g s = (s, [])) ∧
    (∀ (cfg : Settings) (oracle : String → Nat → Option String)
        (zipFiles : String → List String) (extractErr : String → Option String)
        (g : GameData) (s : OrchState),
      (lookupKV s.status g.game_page_url).map (fun r => r.status) = some "fail" →
      cfg.redownload_failed_files = false →
      processGame cfg oracle zipFiles extractErr g s = (s, [])) ∧
    (∀ (cfg : Settings) (oracle : String → Nat → Option String)
        (zipFiles : String → List String) (extractErr : String → Option String)
        (games : List GameData) (s : OrchState),
      (∀ g ∈ games,
        (lookupKV s.status g.game_page_url).map (fun r => r.status) = some "done") →
      runConsole cfg oracle zipFiles extractErr games s =
        ({ s with fs := validate_game_directories s.fs }, [])) :=
  ⟨processGame_skip_done, processGame_skip_fail,
   fun cfg oracle zipFiles extractErr games s hall =>
     runGames_all_done cfg oracle zipFiles extractErr games _ hall⟩

/-- Witness for C4: a one-target catalog already recorded `done` is
re-run; no events are produced and the stores are unchanged. -/
theorem dispatch_by_record_witness :
    runConsole ⟨["mp3"], true, false, 3⟩ (fun _ _ => none) (fun _ => [])
        (fun _ => none) [⟨"G", [⟨"mp3", "http://a/m.zip"⟩], "", "u"⟩]
        ⟨[("G", ["01.mp3"])], [("u", ⟨"done", ""⟩)], [], [("u", ⟨"done", ""⟩)], []⟩ =
      (⟨[("G", ["01.mp3"])], [("u", ⟨"done", ""⟩)], [], [("u", ⟨"done", ""⟩)], []⟩, []) :=
  dispatch_by_record.2.2 ⟨["mp3"], true, false, 3⟩ (fun _ _ => none) (fun _ => [])
    (fun _ => none) [⟨"G", [⟨"mp3", "http://a/m.zip"⟩], "", "u"⟩]
    ⟨[("G", ["01.mp3"])], [("u", ⟨"done", ""⟩)], [], [("u", ⟨"done", ""⟩)], []⟩
    (by decide)

/-- C9: every terminal outcome is persisted before the orchestrator moves
on: if the on-disk copies of the progress store and the failure ledger
agree with the in-memory ones, they still agree after any single target's
processing, and after any whole per-console run. -/
theorem outcome_persisted_before_next :
    (∀ (cfg : Settings) (oracle : String → Nat → Option String)
        (zipFiles : String → List String) (extractErr : String → Option String)
        (g : GameData) (s : OrchState),
      s.savedStatus = s.status → s.savedFailed = s.failed →
      (processGame cfg oracle zipFiles extractErr g s).1.savedStatus =
        (processGame cfg oracle zipFiles extractErr g s).1.status ∧
      (processGame cfg oracle zipFiles extractErr g s).1.savedFailed =
        (processGame cfg oracle zipFiles extractErr g s).1.failed) ∧
    (∀ (cfg : Settings) (oracle : String → Nat → Option String)
        (zipFiles : String → List String) (extractErr : String → Option String)
        (games : List GameData) (s : OrchState),
      s.savedStatus = s.status → s.savedFailed = s.failed →
      (runConsole cfg oracle zipFiles extractErr games s).1.savedStatus =
        (runConsole cfg oracle zipFiles extractErr games s).1.status ∧
      (runConsole cfg oracle zipFiles extractErr games s).1.savedFailed =
        (runConsole cfg oracle zipFiles extractErr games s).1.failed) :=
  ⟨processGame_persists,
   fun cfg oracle zipFiles extractErr games s h1 h2 =>
     runGames_persists cfg oracle zipFiles extractErr games _ h1 h2⟩

/-- Witness for C9: after processing a fresh target that fails its only
fetch attempt, the persisted copies match the in-memory stores. -/
theorem outcome_persisted_before_next_witness :
    (processGame ⟨["mp3"], true, false, 1⟩ (fun _ _ => some "timeout") (fun _ => [])
        (fun _ => none) ⟨"G", [⟨"mp3", "http://a/m.zip"⟩], "", "u"⟩
        ⟨[], [], [], [], []⟩).1.savedStatus =
      (processGame ⟨["mp3"], true, false, 1⟩ (fun _ _ => some "timeout") (fun _ => [])
        (fun _ => none) ⟨"G", [⟨"mp3", "http://a/m.zip"⟩], "", "u"⟩
        ⟨[], [], [], [], []⟩).1.status ∧
    (processGame ⟨["mp3"], true, false, 1⟩ (fun _ _ => some "timeout") (fun _ => [])
        (fun _ => none) ⟨"G", [⟨"mp3", "http://a/m.zip"⟩], "", "u"⟩
        ⟨[], [], [], [], []⟩).1.savedFailed =
      (processGame ⟨["mp3"], true, false, 1⟩ (fun _ _ => some "timeout") (fun _ => [])
        (fun _ => none) ⟨"G", [⟨"mp3", "http://a/m.zip"⟩], "", "u"⟩
        ⟨[], [], [], [], []⟩).1.failed :=
  outcome_persisted_before_next.1 ⟨["mp3"], true, false, 1⟩ (fun _ _ => some "timeout")
    (fun _ => []) (fun _ => none) ⟨"G", [⟨"mp3", "http://a/m.zip"⟩], "", "u"⟩
    ⟨[], [], [], [], []⟩ rfl rfl

/-- C6: when the selector returns `none`, processing a (non-skipped) target
makes no HTTP attempt and no retry sleep, records
`{"status": "fail", "comment": "No suitable link"}` in the progress store
(in memory and persisted), adds the same entry to the failure ledger if the
identifier has none yet, and leaves an existing ledger entry unchanged. -/
theorem no_suitable_link_terminal (cfg : Settings)
    (oracle : String → Nat → Option String) (zipFiles : String → List String)
    (extractErr : String → Option String) (g : GameData) (s : OrchState)
    (hd : (lookupKV s.status g.game_page_url).map (fun r => r.status) ≠ some "done")
    (hf : ¬((lookupKV s.status g.game_page_url).map (fun r => r.status) = some "fail" ∧
      ¬cfg.redownload_failed_files))
    (hsel : select_download_link g.download_links cfg.format_priority = none) :
    countAttempts (processGame cfg oracle zipFiles extractErr g s).2 = 0 ∧
    countSleeps (processGame cfg oracle zipFiles extractErr g s).2 = 0 ∧
    lookupKV (processGame cfg oracle zipFiles extractErr g s).1.status g.game_page_url =
      some ⟨"fail", "No suitable link"⟩ ∧
    lookupKV (processGame cfg oracle zipFiles extractErr g s).1.savedStatus g.game_page_url =
      some ⟨"fail", "No suitable link"⟩ ∧
    (lookupKV s.failed g.game_page_url = none →
      lookupKV (processGame cfg oracle zipFiles extractErr g s).1.failed g.game_page_url =
        some ⟨"fail", "No suitable link"⟩ ∧
      lookupKV (processGame cfg oracle zipFiles extractErr g s).1.savedFailed g.game_page_url =
        some ⟨"fail", "No suitable link"⟩) ∧
    (∀ r, lookupKV s.failed g.game_page_url = some r →
      lookupKV (processGame cfg oracle zipFiles extractErr g s).1.failed g.game_page_url =
        some r) := by
  have hred : processGame cfg oracle zipFiles extractErr g s =
      ((recordFailure g.game_page_url "No suitable link"
          { s with fs := ensureDir s.fs (sanitize_folder_name g.name) }).1,
        .createDir (sanitize_folder_name g.name) ::
          (recordFailure g.game_page_url "No suitable link"
            { s with fs := ensureDir s.fs (sanitize_folder_name g.name) }).2) := by
    simp only [processGame]
    rw [if_neg hd, if_neg hf, hsel]
  rw [hred]
  refine ⟨?_, ?_, ?_, ?_, ?_, ?_⟩
  · rw [countAttempts_createDir]
    exact (recordFailure_counts _ _ _).1
  · rw [countSleeps_createDir]
    exact (recordFailure_counts _ _ _).2
  · exact (recordFailure_status_lookup _ _ _).1
  · exact (recordFailure_status_lookup _ _ _).2
  · intro h
    exact recordFailure_failed_new _ _ _ h
  · intro r h
    exact recordFailure_failed_mono _ _ _ _ _ h

/-- Witness for C6: the no-format scenario — variants `[{"ogg",U}]`,
priority `["mp3"]`, fresh state. -/
theorem no_suitable_link_terminal_witness :
    countAttempts (processGame ⟨["mp3"], true, false, 3⟩ (fun _ _ => none)
      (fun _ => []) (fun _ => none) ⟨"OggGame", [⟨"ogg", "U"⟩], "", "u"⟩
      ⟨[], [], [], [], []⟩).2 = 0 ∧
    countSleeps (processGame ⟨["mp3"], true, false, 3⟩ (fun _ _ => none)
      (fun _ => []) (fun _ => none) ⟨"OggGame", [⟨"ogg", "U"⟩], "", "u"⟩
      ⟨[], [], [], [], []⟩).2 = 0 ∧
    lookupKV (processGame ⟨["mp3"], true, false, 3⟩ (fun _ _ => none)
      (fun _ => []) (fun _ => none) ⟨"OggGame", [⟨"ogg", "U"⟩], "", "u"⟩
      ⟨[], [], [], [], []⟩).1.status "u" = some ⟨"fail", "No suitable link"⟩ ∧
    lookupKV (processGame ⟨["mp3"], true, false, 3⟩ (fun _ _ => none)
      (fun _ => []) (fun _ => none) ⟨"OggGame", [⟨"ogg", "U"⟩], "", "u"⟩
      ⟨[], [], [], [], []⟩).1.savedStatus "u" = some ⟨"fail", "No suitable link"⟩ ∧
    (lookupKV (⟨[], [], [], [], []⟩ : OrchState).failed "u" = none →
      lookupKV (processGame ⟨["mp3"], true, false, 3⟩ (fun _ _ => none)
        (fun _ => []) (fun _ => none) ⟨"OggGame", [⟨"ogg", "U"⟩], "", "u"⟩
        ⟨[], [], [], [], []⟩).1.failed "u" = some ⟨"fail", "No suitable link"⟩ ∧
      lookupKV (processGame ⟨["mp3"], true, false, 3⟩ (fun _ _ => none)
        (fun _ => []) (fun _ => none) ⟨"OggGame", [⟨"ogg", "U"⟩], "", "u"⟩
        ⟨[], [], [], [], []⟩).1.savedFailed "u" = some ⟨"fail", "No suitable link"⟩) ∧
    (∀ r, lookupKV (⟨[], [], [], [], []⟩ : OrchState).failed "u" = some r →
      lookupKV (processGame ⟨["mp3"], true, false, 3⟩ (fun _ _ => none)
        (fun _ => []) (fun _ => none) ⟨"OggGame", [⟨"ogg", "U"⟩], "", "u"⟩
        ⟨[], [], [], [], []⟩).1.failed "u" = some r) :=
  no_suitable_link_terminal ⟨["mp3"], true, false, 3⟩ (fun _ _ => none)
    (fun _ => []) (fun _ => none) ⟨"OggGame", [⟨"ogg", "U"⟩], "", "u"⟩
    ⟨[], [], [], [], []⟩ (by decide) (by decide) (by decide)

/-- C7: the hygiene step keeps exactly the folders that are neither empty
nor single-cover-file (deleting the rest, and keeping survivors with their
contents untouched); and a target with no progress record is processed —
the per-game pipeline starts with its `create_directory` call — regardless
of what the file system holds, so a deleted folder leaves the target
treated as not yet downloaded. -/
theorem directory_hygiene :
    (∀ (fs : FS) (e : String × List String),
      e ∈ validate_game_directories fs ↔ e ∈ fs ∧ isBrokenFolder e.2 = false) ∧
    (∀ (cfg : Settings) (oracle : String → Nat → Option String)
        (zipFiles : String → List String) (extractErr : String → Option String)
        (g : GameData) (s : OrchState),
      lookupKV s.status g.game_page_url = none →
      ∃ ev, (processGame cfg oracle zipFiles extractErr g s).2 =
        .createDir (sanitize_folder_name g.name) :: ev) := by
  constructor
  · intro fs e
    simp [validate_game_directories, List.mem_filter]
  · intro cfg oracle zipFiles extractErr g s h
    simp only [processGame, h, Option.map_none']
    rw [if_neg (by simp), if_neg (by simp)]
    repeat' split
    all_goals exact ⟨_, rfl⟩

/-- Witness for C7: a folder holding only `cover.jpg` is deleted while a
populated folder survives, and a record-less target starts processing. -/
theorem directory_hygiene_witness :
    (("Broken", ["cover.jpg"]) ∈
        validate_game_directories [("Broken", ["cover.jpg"]), ("Kept", ["a.mp3"])] ↔
      ("Broken", ["cover.jpg"]) ∈
          ([("Broken", ["cover.jpg"]), ("Kept", ["a.mp3"])] : FS) ∧
        isBrokenFolder ["cover.jpg"] = false) ∧
    (∃ ev, (processGame ⟨["mp3"], true, false, 3⟩ (fun _ _ => none) (fun _ => [])
        (fun _ => none) ⟨"G", [⟨"mp3", "http://a/m.zip"⟩], "", "u"⟩
        ⟨[], [], [], [], []⟩).2 = .createDir (sanitize_folder_name "G") :: ev) :=
  ⟨directory_hygiene.1 [("Broken", ["cover.jpg"]), ("Kept", ["a.mp3"])]
      ("Broken", ["cover.jpg"]),
   directory_hygiene.2 ⟨["mp3"], true, false, 3⟩ (fun _ _ => none) (fun _ => [])
      (fun _ => none) ⟨"G", [⟨"mp3", "http://a/m.zip"⟩], "", "u"⟩
      ⟨[], [], [], [], []⟩ (by decide)⟩

/-- C8: after a successful archive fetch, with `need_to_extract` on the
archive is extracted (`extract` event), the archive file deleted
(`removeFile` event), every archive member lands in the destination
folder, and — when a cover locator is present — the cover is fetched with
the same retry parameters, its events embedded in the run, and on success
saved as `cover.<ext>` with `<ext>` the locator's path suffix (with no
cover locator, the only HTTP attempts are the archive's); with
`need_to_extract` off the archive stays in place and nothing else — no
extraction, no deletion, no cover fetch — happens before the `done`
record. -/
theorem archive_materializer (cfg : Settings) (oracle : String → Nat → Option String)
    (zipFiles : String → List String) (extractErr : String → Option String)
    (g : GameData) (s : OrchState)
    (hcur : lookupKV s.status g.game_page_url = none)
    (link : String)
    (hsel : select_download_link g.download_links cfg.format_priority = some link)
    (hfetch : (download_file_with_retry link (oracle link) cfg.retry_count).2 = .success) :
    (cfg.need_to_extract = true → extractErr link = none →
      Event.extract (sanitize_folder_name g.name) ∈
        (processGame cfg oracle zipFiles extractErr g s).2 ∧
      Event.removeFile "music.zip" ∈
        (processGame cfg oracle zipFiles extractErr g s).2 ∧
      (∃ files, lookupFS (processGame cfg oracle zipFiles extractErr g s).1.fs
          (sanitize_folder_name g.name) = some files ∧
        ∀ x ∈ zipFiles link, x ≠ "music.zip" → x ∈ files) ∧
      (g.image_url ≠ "" →
        (download_file_with_retry g.image_url (oracle g.image_url) cfg.retry_count).1 <:+:
          (processGame cfg oracle zipFiles extractErr g s).2 ∧
        ((download_file_with_retry g.image_url (oracle g.image_url) cfg.retry_count).2 =
            .success →
          ∃ files, lookupFS (processGame cfg oracle zipFiles extractErr g s).1.fs
              (sanitize_folder_name g.name) = some files ∧
            ("cover" ++ splitextExt g.image_url) ∈ files)) ∧
      (g.image_url = "" →
        countAttempts (processGame cfg oracle zipFiles extractErr g s).2 =
          countAttempts (download_file_with_retry link (oracle link) cfg.retry_count).1)) ∧
    (cfg.need_to_extract = false →
      processGame cfg oracle zipFiles extractErr g s =
        ({ s with
            fs := addFile (ensureDir s.fs (sanitize_folder_name g.name))
              (sanitize_folder_name g.name) "music.zip",
            status := insertKV s.status g.game_page_url ⟨"done", ""⟩,
            savedStatus := insertKV s.status g.game_page_url ⟨"done", ""⟩ },
          .createDir (sanitize_folder_name g.name) ::
            (download_file_with_retry link (oracle link) cfg.retry_count).1 ++
              [.saveStatus])) := by
  constructor
  · intro hext hee
    by_cases himg : g.image_url = ""
    · have hP : processGame cfg oracle zipFiles extractErr g s =
          ((recordSuccess g.game_page_url
              { s with fs := materializedFS s.fs (sanitize_folder_name g.name) (zipFiles link) }).1,
            .createDir (sanitize_folder_name g.name) ::
              (download_file_with_retry link (oracle link) cfg.retry_count).1 ++
                .extract (sanitize_folder_name g.name) :: .removeFile "music.zip" ::
                (recordSuccess g.game_page_url
                  { s with fs := materializedFS s.fs (sanitize_folder_name g.name) (zipFiles link) }).2) := by
        simp only [processGame, hcur, Option.map_none', reduceCtorEq, if_false,
          false_and, hsel, hfetch, hext, hee, himg, ne_eq, eq_self_iff_true,
          not_true, if_true, materializedFS]
      rw [hP]
      obtain ⟨files0, hsp, hmem⟩ :=
        fs_spine s.fs (sanitize_folder_name g.name) (zipFiles link)
      refine ⟨by simp, by simp, ⟨files0, hsp, hmem⟩, ?_, ?_⟩
      · intro h0
        exact absurd himg h0
      · intro _
        simp [countAttempts_createDir, countAttempts_append, countAttempts_extract,
          countAttempts_removeFile, countAttempts_saveStatus, countAttempts_nil,
          recordSuccess]
    · cases hc : (download_file_with_retry g.image_url (oracle g.image_url)
          cfg.retry_count).2 with
      | success =>
        have hP : processGame cfg oracle zipFiles extractErr g s =
            ((recordSuccess g.game_page_url
                { s with fs := addFile (materializedFS s.fs (sanitize_folder_name g.name) (zipFiles link)) (sanitize_folder_name g.name) ("cover" ++ splitextExt g.image_url) }).1,
              .createDir (sanitize_folder_name g.name) ::
                (download_file_with_retry link (oracle link) cfg.retry_count).1 ++
                  .extract (sanitize_folder_name g.name) :: .removeFile "music.zip" ::
                  (download_file_with_retry g.image_url (oracle g.image_url)
                    cfg.retry_count).1 ++
                  (recordSuccess g.game_page_url
                    { s with fs := addFile (materializedFS s.fs (sanitize_folder_name g.name) (zipFiles link)) (sanitize_folder_name g.name) ("cover" ++ splitextExt g.image_url) }).2) := by
          simp only [processGame, hcur, Option.map_none', reduceCtorEq, if_false,
            false_and, hsel, hfetch, hext, hee, himg, ne_eq, not_false_iff,
            if_true, hc, materializedFS]
        rw [hP]
        obtain ⟨files0, hsp, hmem⟩ :=
          fs_spine s.fs (sanitize_folder_name g.name) (zipFiles link)
        have hcovfs : lookupFS
            (addFile (materializedFS s.fs (sanitize_folder_name g.name)
              (zipFiles link)) (sanitize_folder_name g.name)
              ("cover" ++ splitextExt g.image_url))
            (sanitize_folder_name g.name) =
            some (if ("cover" ++ splitextExt g.image_url) ∈ files0 then files0
              else files0 ++ ["cover" ++ splitextExt g.image_url]) := by
          rw [lookupFS_addFile, hsp]
          rfl
        refine ⟨by simp, by simp, ?_, ?_, ?_⟩
        · refine ⟨_, hcovfs, ?_⟩
          intro x hx hne
          by_cases hcv : ("cover" ++ splitextExt g.image_url) ∈ files0
          · rw [if_pos hcv]
            exact hmem x hx hne
          · rw [if_neg hcv]
            exact List.mem_append_left _ (hmem x hx hne)
        · intro _
          constructor
          · refine ⟨.createDir (sanitize_folder_name g.name) ::
              (download_file_with_retry link (oracle link) cfg.retry_count).1 ++
                [.extract (sanitize_folder_name g.name), .removeFile "music.zip"],
              (recordSuccess g.game_page_url { s with fs := addFile (materializedFS s.fs (sanitize_folder_name g.name) (zipFiles link)) (sanitize_folder_name g.name) ("cover" ++ splitextExt g.image_url) }).2, ?_⟩
            simp
          · intro _
            refine ⟨_, hcovfs, ?_⟩
            by_cases hcv : ("cover" ++ splitextExt g.image_url) ∈ files0
            · rw [if_pos hcv]
              exact hcv
            · rw [if_neg hcv]
              simp
        · intro h0
          exact absurd h0 himg
      | raised e =>
        have hP : processGame cfg oracle zipFiles extractErr g s =
            ((recordFailure g.game_page_url e
                { s with fs := materializedFS s.fs (sanitize_folder_name g.name) (zipFiles link) }).1,
              .createDir (sanitize_folder_name g.name) ::
                (download_file_with_retry link (oracle link) cfg.retry_count).1 ++
                  .extract (sanitize_folder_name g.name) :: .removeFile "music.zip" ::
                  (download_file_with_retry g.image_url (oracle g.image_url)
                    cfg.retry_count).1 ++
                  (recordFailure g.game_page_url e
                    { s with fs := materializedFS s.fs (sanitize_folder_name g.name) (zipFiles link) }).2) := by
          simp only [processGame, hcur, Option.map_none', reduceCtorEq, if_false,
            false_and, hsel, hfetch, hext, hee, himg, ne_eq, not_false_iff,
            if_true, hc, msgOf, materializedFS]
        rw [hP]
        obtain ⟨files0, hsp, hmem⟩ :=
          fs_spine s.fs (sanitize_folder_name g.name) (zipFiles link)
        refine ⟨by simp, by simp, ?_, ?_, ?_⟩
        · refine ⟨files0, ?_, hmem⟩
          rw [recordFailure_fs]
          exact hsp
        · intro _
          constructor
          · refine ⟨.createDir (sanitize_folder_name g.name) ::
              (download_file_with_retry link (oracle link) cfg.retry_count).1 ++
                [.extract (sanitize_folder_name g.name), .removeFile "music.zip"],
              (recordFailure g.game_page_url e { s with fs := materializedFS s.fs (sanitize_folder_name g.name) (zipFiles link) }).2, ?_⟩
            simp
          · intro hcov
            cases hcov
        · intro h0
          exact absurd h0 himg
      | raisedNone =>
        have hP : processGame cfg oracle zipFiles extractErr g s =
            ((recordFailure g.game_page_url
                "exceptions must derive from BaseException"
                { s with fs := materializedFS s.fs (sanitize_folder_name g.name) (zipFiles link) }).1,
              .createDir (sanitize_folder_name g.name) ::
                (download_file_with_retry link (oracle link) cfg.retry_count).1 ++
                  .extract (sanitize_folder_name g.name) :: .removeFile "music.zip" ::
                  (download_file_with_retry g.image_url (oracle g.image_url)
                    cfg.retry_count).1 ++
                  (recordFailure g.game_page_url
                    "exceptions must derive from BaseException"
                    { s with fs := materializedFS s.fs (sanitize_folder_name g.name) (zipFiles link) }).2) := by
          simp only [processGame, hcur, Option.map_none', reduceCtorEq, if_false,
            false_and, hsel, hfetch, hext, hee, himg, ne_eq, not_false_iff,
            if_true, hc, msgOf, materializedFS]
        rw [hP]
        obtain ⟨files0, hsp, hmem⟩ :=
          fs_spine s.fs (sanitize_folder_name g.name) (zipFiles link)
        refine ⟨by simp, by simp, ?_, ?_, ?_⟩
        · refine ⟨files0, ?_, hmem⟩
          rw [recordFailure_fs]
          exact hsp
        · intro _
          constructor
          · refine ⟨.createDir (sanitize_folder_name g.name) ::
              (download_file_with_retry link (oracle link) cfg.retry_count).1 ++
                [.extract (sanitize_folder_name g.name), .removeFile "music.zip"],
              (recordFailure g.game_page_url "exceptions must derive from BaseException" { s with fs := materializedFS s.fs (sanitize_folder_name g.name) (zipFiles link) }).2, ?_⟩
            simp
          · intro hcov
            cases hcov
        · intro h0
          exact absurd h0 himg
  · intro hext0
    simp only [processGame, hcur, Option.map_none', reduceCtorEq, if_false,
      false_and, hsel, hfetch, hext0, recordSuccess]

/-- Witness for C8: a one-variant target with a cover locator, extract on,
first attempt succeeding — the extraction event is in the run's trace. -/
theorem archive_materializer_witness :
    Event.extract (sanitize_folder_name "Game A") ∈
      (processGame ⟨["mp3"], true, false, 2⟩ (fun _ _ => none)
        (fun _ => ["01.mp3"]) (fun _ => none)
        ⟨"Game A", [⟨"MP3", "U"⟩], "http://x/c.png", "u"⟩
        ⟨[], [], [], [], []⟩).2 :=
  ((archive_materializer ⟨["mp3"], true, false, 2⟩ (fun _ _ => none)
      (fun _ => ["01.mp3"]) (fun _ => none)
      ⟨"Game A", [⟨"MP3", "U"⟩], "http://x/c.png", "u"⟩ ⟨[], [], [], [], []⟩
      (by decide) "U" (by decide) (by decide)).1 rfl rfl).1

/-- C5 counterexample: a target whose folder holds the non-cover file
`track01.mp3` (and survives hygiene) but has no progress record IS
re-fetched by the orchestrator — `main` never consults folder contents. -/
theorem content_presence_counterexample :
    lookupFS (validate_game_directories [("GameX", ["track01.mp3"])]) "GameX" =
      some ["track01.mp3"] ∧
    Event.fetchAttempt "http://x/m.zip" ∈
      (runConsole ⟨["mp3"], true, false, 3⟩ (fun _ _ => none) (fun _ => ["01.mp3"])
        (fun _ => none) [⟨"GameX", [⟨"MP3", "http://x/m.zip"⟩], "", "u"⟩]
        ⟨[("GameX", ["track01.mp3"])], [], [], [], []⟩).2 :=
  ⟨by decide, by decide⟩

/-- C5 amended: only the legacy crawler treats content presence as
evidence of success — `parse_console_page` of `download.py` excludes from
its download list every game whose folder exists and is non-empty. The
core orchestrator consults the progress record alone: a `done` record
skips the target with no I/O, but a populated folder without a record
does not prevent a re-fetch (see the counterexample). -/
theorem content_presence_amended :
    (∀ (fs : FS) (games : List (String × String)) (g : String × String)
        (files : List String),
      lookupFS fs g.1 = some files → files ≠ [] →
      g ∉ games_to_download fs games) ∧
    (∀ (cfg : Settings) (oracle : String → Nat → Option String)
        (zipFiles : String → List String) (extractErr : String → Option String)
        (g : GameData) (s : OrchState),
      (lookupKV s.status g.game_page_url).map (fun r => r.status) = some "done" →
      processGame cfg oracle zipFiles extractErr g s = (s, [])) := by
  constructor
  · intro fs games g files hl hne hmem
    have hp := List.of_mem_filter hmem
    rw [hl] at hp
    simp only [List.isEmpty_iff] at hp
    exact hne hp
  · exact processGame_skip_done

/-- Witness for the amended C5: the legacy filter drops a game with a
populated folder, and the orchestrator skips a `done`-recorded target. -/
theorem content_presence_amended_witness :
    ("GameX", "u") ∉ games_to_download [("GameX", ["track01.mp3"])]
      [("GameX", "u")] ∧
    processGame ⟨["mp3"], true, false, 3⟩ (fun _ _ => none) (fun _ => [])
      (fun _ => none) ⟨"GameX", [⟨"MP3", "http://x/m.zip"⟩], "", "u"⟩
      ⟨[("GameX", ["track01.mp3"])], [("u", ⟨"done", ""⟩)], [],
        [("u", ⟨"done", ""⟩)], []⟩ =
      (⟨[("GameX", ["track01.mp3"])], [("u", ⟨"done", ""⟩)], [],
        [("u", ⟨"done", ""⟩)], []⟩, []) :=
  ⟨content_presence_amended.1 [("GameX", ["track01.mp3"])] [("GameX", "u")]
      ("GameX", "u") ["track01.mp3"] (by decide) (by decide),
   content_presence_amended.2 ⟨["mp3"], true, false, 3⟩ (fun _ _ => none)
      (fun _ => []) (fun _ => none) ⟨"GameX", [⟨"MP3", "http://x/m.zip"⟩], "", "u"⟩
      ⟨[("GameX", ["track01.mp3"])], [("u", ⟨"done", ""⟩)], [],
        [("u", ⟨"done", ""⟩)], []⟩ (by decide)⟩

end Zophar
